import Mathlib

/-!
Shallow embedding of the CodeGuardian security-scan core
(`src/models/types.ts`, `src/aggregator/ResultAggregator.ts`,
`src/aggregator/Deduplicator.ts`, `src/formatter/Formatter.ts`,
`src/analyzers/LLMAnalyzer.ts`, `src/scanner/SecurityScanEngine.ts`,
`src/utils/CodeParser.ts`, `src/utils/LanguageDetector.ts`).

Modelling conventions:
* JavaScript strings are Lean `String`; `s.length` counts characters
  (UTF-16 subtleties are immaterial for the properties below).
* JavaScript numbers in the data model are `Int` (the pipeline only ever
  produces integers); similarity scores are exact rationals `ℚ`
  (`0.7` is `7/10`).
* JavaScript falsy coalescing `x || d` on a string is
  `if x = "" then d else x`, and on a number `if x = 0 then d else x`;
  the nullish operator `x ?? d` on an optional is `Option.getD`.
* `Date.now()` / `new Date().toISOString()` are modelled by a `Clock`
  value held constant during one scan; `uuidv4()` by an injected
  id-generating function.
-/

-- Let concrete similarity scores evaluate inside `decide` proofs:
-- Batteries marks rational arithmetic irreducible, which only blocks
-- definitional unfolding, not correctness.
attribute [local semireducible] Rat.add Rat.sub Rat.mul Rat.inv

set_option maxRecDepth 16000

/-- `SeverityLevel` enum from `src/models/types.ts`
(`critical`, `high`, `medium`, `low`, `info`). -/
inductive SeverityLevel where
  | critical
  | high
  | medium
  | low
  | info
  deriving DecidableEq

/-- `AnalyzerSource` union type from `src/models/types.ts`:
`'static' | 'llm' | 'merged'`. -/
inductive AnalyzerSource where
  | static
  | llm
  | merged
  deriving DecidableEq

/-- The string value of a `SeverityLevel` enum member
(`SeverityLevel.CRITICAL = 'critical'`, ...). -/
def severityString : SeverityLevel → String
  | .critical => "critical"
  | .high => "high"
  | .medium => "medium"
  | .low => "low"
  | .info => "info"

/-- `VulnerabilityIssue` interface from `src/models/types.ts`. -/
structure VulnerabilityIssue where
  id : String
  title : String
  description : String
  severity : SeverityLevel
  owaspCategory : String
  line : Int
  columnStart : Int
  columnEnd : Int
  fix : String
  source : AnalyzerSource
  codeSnippet : Option String := none
  deriving DecidableEq

/-- `ScanMetadata` interface from `src/models/types.ts`. -/
structure ScanMetadata where
  timestamp : String
  duration : Int
  language : String
  linesOfCode : Nat
  analyzersUsed : List String
  staticRulesApplied : Nat
  llmModel : Option String := none
  deriving DecidableEq

/-- `ScanResult` interface from `src/models/types.ts`; the optional
`errors?` field is `none` when absent. -/
structure ScanResult where
  success : Bool
  issues : List VulnerabilityIssue
  metadata : ScanMetadata
  errors : Option (List String) := none
  deriving DecidableEq

/-- `AnalyzerResult` interface from `src/models/types.ts`; its `source`
is the string tag `'static'` or `'llm'`, and an absent `errors?` array is
modelled as `[]` (the consumers only test emptiness). -/
structure AnalyzerResult where
  source : String
  issues : List VulnerabilityIssue
  errors : List String := []
  deriving DecidableEq

/-- `ParsedCode` from `src/models/types.ts`, restricted to the fields the
pipeline reads (`raw` and `lines`; the token list is never consumed). -/
structure ParsedCode where
  raw : String
  lines : List String
  deriving DecidableEq

/-- JS `x || d` for strings: the empty string is falsy. -/
def jsOr (s d : String) : String :=
  if s = "" then d else s

/-- JS `x || d` for integer-valued numbers: `0` is falsy. -/
def jsOrInt (n d : Int) : Int :=
  if n = 0 then d else n

/-- JS `x || d` for natural-valued numbers: `0` is falsy. -/
def jsOrNat (n d : Nat) : Nat :=
  if n = 0 then d else n

/-- JS `String.prototype.toLowerCase` (ASCII case mapping suffices for the
strings this pipeline compares). -/
def jsToLower (s : String) : String :=
  String.mk (s.data.map Char.toLower)

/-- JS `String.prototype.toUpperCase` (ASCII case mapping). -/
def jsToUpper (s : String) : String :=
  String.mk (s.data.map Char.toUpper)

/-- Accumulator pass behind `jsSplitNewline`. -/
def splitLinesGo : List Char → List Char → List String
  | acc, [] => [String.mk acc.reverse]
  | acc, c :: cs =>
      if c = '\n' then String.mk acc.reverse :: splitLinesGo [] cs
      else splitLinesGo (c :: acc) cs

/-- JS `code.split('\n')`: split on newlines, keeping empty segments
(the empty string yields one empty line, as in JS). -/
def jsSplitNewline (code : String) : List String :=
  splitLinesGo [] code.data

/-- JS `String.prototype.trim`: strip leading and trailing whitespace. -/
def jsTrim (s : String) : String :=
  String.mk (((s.data.dropWhile Char.isWhitespace).reverse.dropWhile
    Char.isWhitespace).reverse)

namespace Deduplicator

/-- `LINE_TOLERANCE = 1` from `src/aggregator/Deduplicator.ts`. -/
def LINE_TOLERANCE : Nat := 1

/-- `FUZZY_MATCH_THRESHOLD = 0.7` from `src/aggregator/Deduplicator.ts`. -/
def FUZZY_MATCH_THRESHOLD : ℚ := 7/10

/-- Try to read an OWASP code (regex `A\d{2}:\d{4}`) starting at the head
of the character list. -/
def owaspCodeAt : List Char → Option String
  | 'A' :: d1 :: d2 :: ':' :: y1 :: y2 :: y3 :: y4 :: _ =>
      if d1.isDigit && d2.isDigit && y1.isDigit && y2.isDigit &&
          y3.isDigit && y4.isDigit then
        some (String.mk ['A', d1, d2, ':', y1, y2, y3, y4])
      else
        none
  | _ => none

/-- First match of the regex `A\d{2}:\d{4}` in the string
(`category.match(/A\d{2}:\d{4}/)`). -/
def findOwaspCode : List Char → Option String
  | [] => none
  | c :: rest =>
      match owaspCodeAt (c :: rest) with
      | some code => some code
      | none => findOwaspCode rest

/-- `Deduplicator.normalizeOwaspCategory`: extract the bare category code
(e.g. `A03:2021` from `A03:2021 - Injection`); if no code is present,
fall back to `category.toLowerCase().trim()`. -/
def normalizeOwaspCategory (category : String) : String :=
  match findOwaspCode category.data with
  | some code => code
  | none => jsTrim (jsToLower category)

/-- One inner step of the Levenshtein dynamic-programming row update:
given the running `left` cell (`dp[i][j-1]`), the `diag` cell
(`dp[i-1][j-1]`), the remaining characters of `str2` and the remaining
cells `dp[i-1][j], dp[i-1][j+1], ...` of the previous row, produce the
cells `dp[i][j], dp[i][j+1], ...` of the current row. -/
def levRowGo (c1 : Char) : Nat → Nat → List Char → List Nat → List Nat
  | _, _, [], _ => []
  | _, _, _ :: _, [] => []
  | left, diag, c2 :: cs, up :: rest =>
      let cell := if c1 = c2 then diag else 1 + min up (min left diag)
      cell :: levRowGo c1 cell up cs rest

/-- Row `i` of the Levenshtein table from row `i-1`
(`dp[i][0] = i`, then the standard recurrence). -/
def levRow (c1 : Char) (rowIndex : Nat) (prev : List Nat)
    (s2 : List Char) : List Nat :=
  rowIndex :: levRowGo c1 rowIndex (prev.headD 0) s2 prev.tail

/-- `Deduplicator.levenshteinDistance`: the dynamic-programming table of
the source, built row by row; the answer is `dp[m][n]`. -/
def levenshteinDistance (str1 str2 : String) : Nat :=
  let s2 := str2.data
  let firstRow := List.range (s2.length + 1)
  let finalRow :=
    (str1.data.foldl
      (fun acc c1 => (levRow c1 (acc.2 + 1) acc.1 s2, acc.2 + 1))
      (firstRow, 0)).1
  finalRow.getLastD 0

/-- `Deduplicator.calculateSimilarity`:
`1 − editDistance/maxLength` on lowercased, trimmed inputs, with the two
source shortcuts (equal strings, and two empty strings, score `1`). -/
def calculateSimilarity (str1 str2 : String) : ℚ :=
  let s1 := jsTrim (jsToLower str1)
  let s2 := jsTrim (jsToLower str2)
  if s1 = s2 then 1
  else
    let distance := levenshteinDistance s1 s2
    let maxLength := max s1.length s2.length
    if maxLength = 0 then 1
    else 1 - (distance : ℚ) / (maxLength : ℚ)

/-- `Deduplicator.isDuplicate`: line numbers within tolerance, equal
normalized OWASP categories, and fuzzy title similarity at least `0.7`. -/
def isDuplicate (issue1 issue2 : VulnerabilityIssue) : Bool :=
  if ¬ ((issue1.line - issue2.line).natAbs ≤ LINE_TOLERANCE) then false
  else if ¬ (normalizeOwaspCategory issue1.owaspCategory =
      normalizeOwaspCategory issue2.owaspCategory) then false
  else decide (FUZZY_MATCH_THRESHOLD ≤ calculateSimilarity issue1.title issue2.title)

/-- The severity priority list iterated by
`Deduplicator.getHighestSeverity`. -/
def severityOrderList : List SeverityLevel :=
  [.critical, .high, .medium, .low, .info]

/-- `Deduplicator.getHighestSeverity`: first severity of the priority
list present in the input; the fallback `severities[0] || MEDIUM` is only
reachable on an empty input. -/
def getHighestSeverity (severities : List SeverityLevel) : SeverityLevel :=
  match severityOrderList.find? (fun level => severities.contains level) with
  | some level => level
  | none => severities.headD .medium

/-- Placeholder returned for an empty cluster; unreachable from
`deduplicate` (the original JS would fault on `duplicates[0]`). -/
def emptyClusterIssue : VulnerabilityIssue :=
  { id := "", title := "", description := "", severity := .medium,
    owaspCategory := "", line := 0, columnStart := 0, columnEnd := 0,
    fix := "", source := .merged, codeSnippet := none }

/-- `Deduplicator.mergeDuplicates`: singletons pass through; larger
clusters take the first llm-sourced member (else the first member) as the
base record and override provenance, description, fix and severity. -/
def mergeDuplicates (duplicates : List VulnerabilityIssue) : VulnerabilityIssue :=
  match duplicates with
  | [] => emptyClusterIssue
  | [single] => single
  | d :: ds =>
      let all := d :: ds
      let llmIssue := all.find? (fun issue => issue.source == AnalyzerSource.llm)
      let baseIssue := llmIssue.getD d
      let distinctSources := (all.map (fun issue => issue.source)).dedup
      let mergedSource :=
        if distinctSources.length > 1 then AnalyzerSource.merged
        else baseIssue.source
      let bestDescription :=
        (ds.foldl
          (fun best current =>
            if best.description.length < current.description.length then current
            else best) d).description
      let bestFix :=
        (ds.foldl
          (fun best current =>
            if best.fix.length < current.fix.length then current
            else best) d).fix
      let highestSeverity := getHighestSeverity (all.map (fun issue => issue.severity))
      { baseIssue with
          source := mergedSource,
          description := bestDescription,
          fix := bestFix,
          severity := highestSeverity }

/-- The anchor-first single pass of `Deduplicator.deduplicate`: the head
is the anchor, every later unprocessed issue matching it joins the
cluster, and the pass recurses on the remaining issues.  The `fuel`
argument only makes the recursion structural (each step strictly shrinks
the list, so `fuel = issues.length` always suffices). -/
def dedupGo : Nat → List VulnerabilityIssue → List VulnerabilityIssue
  | _, [] => []
  | 0, _ :: _ => []
  | fuel + 1, currentIssue :: rest =>
      let dups := rest.filter (fun x => isDuplicate currentIssue x)
      let others := rest.filter (fun x => ! isDuplicate currentIssue x)
      mergeDuplicates (currentIssue :: dups) :: dedupGo fuel others

/-- `Deduplicator.deduplicate`. -/
def deduplicate (issues : List VulnerabilityIssue) : List VulnerabilityIssue :=
  if issues.length = 0 then [] else dedupGo issues.length issues

end Deduplicator

/-- The two `Date` readings a scan performs (`Date.now()` in
milliseconds, `new Date().toISOString()`).  A scan is modelled at one
clock instant, so every reading during a single scan returns the same
value (in particular fail-fast durations are `0`). -/
structure Clock where
  nowMs : Nat
  nowIso : String

namespace Formatter

/-- The `severityOrder` record of `src/formatter/Formatter.ts`
(Critical `0` ... Info `4`): smaller sorts first. -/
def severityOrder : SeverityLevel → Nat
  | .critical => 0
  | .high => 1
  | .medium => 2
  | .low => 3
  | .info => 4

/-- `Formatter.generateId`: severity abbreviation, line number, timestamp
and array index joined by dashes. -/
def generateId (timestamp : Nat) (issue : VulnerabilityIssue) (index : Nat) : String :=
  let severityAbbrev := jsToUpper ((severityString issue.severity).take 3)
  severityAbbrev ++ "-" ++ toString issue.line ++ "-" ++ toString timestamp
    ++ "-" ++ toString index

/-- Index-tracking recursion behind `Formatter.ensureUniqueIds`
(the `issues.map((issue, index) => ...)` of the source). -/
def ensureUniqueIdsGo (timestamp : Nat) : Nat → List VulnerabilityIssue →
    List VulnerabilityIssue
  | _, [] => []
  | index, issue :: rest =>
      (if jsTrim issue.id = "" then
        { issue with id := generateId timestamp issue index }
      else issue) :: ensureUniqueIdsGo timestamp (index + 1) rest

/-- `Formatter.ensureUniqueIds`: replace a missing or blank id
(`!issue.id || issue.id.trim() === ''`) by a generated one. -/
def ensureUniqueIds (timestamp : Nat) (issues : List VulnerabilityIssue) :
    List VulnerabilityIssue :=
  ensureUniqueIdsGo timestamp 0 issues

/-- The ordering induced by the `Formatter.sortIssues` comparator:
`a` is sorted no later than `b` when its severity rank is smaller, or the
ranks tie and its line number is no larger. -/
def sortLe (a b : VulnerabilityIssue) : Prop :=
  severityOrder a.severity < severityOrder b.severity ∨
    (severityOrder a.severity = severityOrder b.severity ∧ a.line ≤ b.line)

instance : DecidableRel sortLe := by
  intro a b
  unfold sortLe
  infer_instance

instance : IsTotal VulnerabilityIssue sortLe where
  total a b := by
    unfold sortLe
    rcases Nat.lt_trichotomy (severityOrder a.severity) (severityOrder b.severity) with h | h | h
    · exact Or.inl (Or.inl h)
    · rcases Int.le_total a.line b.line with hl | hl
      · exact Or.inl (Or.inr ⟨h, hl⟩)
      · exact Or.inr (Or.inr ⟨h.symm, hl⟩)
    · exact Or.inr (Or.inl h)

instance : IsTrans VulnerabilityIssue sortLe where
  trans a b c hab hbc := by
    unfold sortLe at *
    rcases hab with h1 | ⟨h1, l1⟩
    · rcases hbc with h2 | ⟨h2, _⟩
      · exact Or.inl (h1.trans h2)
      · exact Or.inl (h2 ▸ h1)
    · rcases hbc with h2 | ⟨h2, l2⟩
      · exact Or.inl (h1 ▸ h2)
      · exact Or.inr ⟨h1.trans h2, l1.trans l2⟩

/-- `Formatter.sortIssues`: JS `Array.prototype.sort` with the
severity-then-line comparator.  `Array.prototype.sort` is a stable sort
(ES2019), and a stable sort for a total preorder has a unique result, so
it is modelled by the stable `List.insertionSort`. -/
def sortIssues (issues : List VulnerabilityIssue) : List VulnerabilityIssue :=
  List.insertionSort sortLe issues

/-- The per-issue body of `Formatter.validateIssues`: substitute the
documented default for every falsy (absent or empty) field.  The typed
`severity`/`source` enum values are always truthy, so `issue.severity ||
SeverityLevel.INFO` and `issue.source || 'static'` are the identity; the
conditional spread drops a falsy `codeSnippet`. -/
def validateIssue (issue : VulnerabilityIssue) : VulnerabilityIssue :=
  { id := jsOr issue.id "",
    title := jsOr issue.title "Unknown Issue",
    description := jsOr issue.description "No description available",
    severity := issue.severity,
    owaspCategory := jsOr issue.owaspCategory "Unknown",
    line := jsOrInt issue.line 0,
    columnStart := jsOrInt issue.columnStart 0,
    columnEnd := jsOrInt issue.columnEnd 0,
    fix := jsOr issue.fix "No fix recommendation available",
    source := issue.source,
    codeSnippet :=
      match issue.codeSnippet with
      | some s => if s = "" then none else some s
      | none => none }

/-- `Formatter.validateIssues`. -/
def validateIssues (issues : List VulnerabilityIssue) : List VulnerabilityIssue :=
  issues.map validateIssue

/-- `Formatter.validateMetadata`: default every falsy field; the ISO
timestamp fallback is the clock reading `new Date().toISOString()`. -/
def validateMetadata (nowIso : String) (metadata : ScanMetadata) : ScanMetadata :=
  { timestamp := jsOr metadata.timestamp nowIso,
    duration := jsOrInt metadata.duration 0,
    language := jsOr metadata.language "unknown",
    linesOfCode := jsOrNat metadata.linesOfCode 0,
    analyzersUsed := metadata.analyzersUsed,
    staticRulesApplied := jsOrNat metadata.staticRulesApplied 0,
    llmModel :=
      match metadata.llmModel with
      | some m => if m = "" then none else some m
      | none => none }

/-- `Formatter.format`: assign ids, sort, validate, wrap with
`success: true` (the scan engine attaches errors afterwards). -/
def format (clock : Clock) (issues : List VulnerabilityIssue)
    (metadata : ScanMetadata) : ScanResult :=
  let issuesWithIds := ensureUniqueIds clock.nowMs issues
  let sortedIssues := sortIssues issuesWithIds
  let validatedIssues := validateIssues sortedIssues
  { success := true,
    issues := validatedIssues,
    metadata := validateMetadata clock.nowIso metadata,
    errors := none }

end Formatter

namespace ResultAggregator

/-- `ResultAggregator.aggregate`: concatenate every analyzer's issues in
result order.  In the typed model each issue already carries a truthy
`source`, so the `issue.source || result.source` backfill is the
identity, and the `Array.isArray` guard always holds. -/
def aggregate (results : List AnalyzerResult) : List VulnerabilityIssue :=
  results.foldl (fun allIssues result => allIssues ++ result.issues) []

/-- `ResultAggregator.getErrors`: every per-source diagnostic, prefixed
with its source tag in brackets. -/
def getErrors (results : List AnalyzerResult) : List String :=
  results.foldl
    (fun errors result =>
      errors ++ result.errors.map (fun err => "[" ++ result.source ++ "] " ++ err))
    []

end ResultAggregator

namespace LLMAnalyzer

/-- `LLMVulnerability` element shape of `src/analyzers/LLMAnalyzer.ts`:
one validated object of the remote response array (column bounds
optional). -/
structure LLMVulnerability where
  title : String
  description : String
  severity : String
  owaspCategory : String
  line : Int
  columnStart : Option Int := none
  columnEnd : Option Int := none
  fix : String
  deriving DecidableEq

/-- `LLMAnalyzer.normalizeSeverity`: case-insensitive mapping onto the
five-value enum, defaulting every unrecognized value to `medium`. -/
def normalizeSeverity (severity : String) : SeverityLevel :=
  let normalized := jsToLower severity
  if normalized = "critical" then .critical
  else if normalized = "high" then .high
  else if normalized = "medium" then .medium
  else if normalized = "low" then .low
  else if normalized = "info" then .info
  else .medium

/-- Index-tracking recursion behind `mapToVulnerabilityIssues`; `newId`
injects the successive `uuidv4()` results. -/
def mapToVulnerabilityIssuesGo (newId : Nat → String) (parsedCode : ParsedCode) :
    Nat → List LLMVulnerability → List VulnerabilityIssue
  | _, [] => []
  | index, vuln :: rest =>
      let codeLine :=
        if 1 ≤ vuln.line then parsedCode.lines.getD (vuln.line - 1).toNat ""
        else ""
      let columnStart := vuln.columnStart.getD 0
      let columnEnd := vuln.columnEnd.getD (codeLine.length : Int)
      { id := newId index,
        title := vuln.title,
        description := vuln.description,
        severity := normalizeSeverity vuln.severity,
        owaspCategory := vuln.owaspCategory,
        line := vuln.line,
        columnStart := columnStart,
        columnEnd := columnEnd,
        fix := vuln.fix,
        source := AnalyzerSource.llm,
        codeSnippet := some codeLine } ::
        mapToVulnerabilityIssuesGo newId parsedCode (index + 1) rest

/-- `LLMAnalyzer.mapToVulnerabilityIssues`: each response element becomes
an llm-sourced issue; `parsedCode.lines[vuln.line - 1] || ''` is the
snippet (empty for an out-of-range line), absent `columnStart` defaults
to `0` and absent `columnEnd` to the snippet length. -/
def mapToVulnerabilityIssues (newId : Nat → String)
    (vulnerabilities : List LLMVulnerability) (parsedCode : ParsedCode) :
    List VulnerabilityIssue :=
  mapToVulnerabilityIssuesGo newId parsedCode 0 vulnerabilities

/-- `LLMAnalyzer.analyze`: the whole remote interaction sits in a
`try/catch` that logs and returns `[]`, so any call failure (timeout
`LLM API timeout after ...ms`, network error, missing API key, HTTP
error) yields the empty issue list with no diagnostic in the return
value.  An `.ok` payload stands for the element array that
`parseResponse` extracted and validated from the raw text (JSON decoding
of that text is abstracted; an unparseable or non-array payload is the
`.ok []` case). -/
def analyze (newId : Nat → String)
    (llmCall : Except String (List LLMVulnerability))
    (parsedCode : ParsedCode) : List VulnerabilityIssue :=
  match llmCall with
  | .ok vulnerabilities => mapToVulnerabilityIssues newId vulnerabilities parsedCode
  | .error _ => []

end LLMAnalyzer

/-- `Language` enum from `src/models/types.ts` (named `ScanLanguage` here
only because Mathlib already claims the name `Language`). -/
inductive ScanLanguage where
  | javascript
  | typescript
  | unknown
  deriving DecidableEq

/-- The string value of a `Language` enum member. -/
def languageString : ScanLanguage → String
  | .javascript => "javascript"
  | .typescript => "typescript"
  | .unknown => "unknown"

namespace LanguageDetector

/-- `LanguageDetector.EXTENSION_MAP`. -/
def extensionMap (ext : String) : Option ScanLanguage :=
  if ext = ".js" then some .javascript
  else if ext = ".jsx" then some .javascript
  else if ext = ".ts" then some .typescript
  else if ext = ".tsx" then some .typescript
  else none

/-- `LanguageDetector.detect`: a recognized extension hint wins;
otherwise fall back to content-based detection.  Content detection
(`detectFromContent`, regex scoring over the raw text) is language
identification, an external collaborator at this spec's boundary, so its
verdict is the `contentDetected` argument. -/
def detect (fileExtension : String) (contentDetected : ScanLanguage) : ScanLanguage :=
  if fileExtension ≠ "" then
    match extensionMap (jsToLower fileExtension) with
    | some langFromExt => langFromExt
    | none => contentDetected
  else contentDetected

/-- `LanguageDetector.isSupported`. -/
def isSupported (language : ScanLanguage) : Bool :=
  language == ScanLanguage.javascript || language == ScanLanguage.typescript

end LanguageDetector

namespace CodeParser

/-- `CodeParser.parse`, restricted to the fields the analyzers consume:
the raw text and the `code.split('\n')` line array.  The tokenizer's
output is never read downstream, and the defensive `catch` in `parse`
cannot fire (line splitting is total), so parsing never throws. -/
def parse (code : String) : ParsedCode :=
  { raw := code, lines := jsSplitNewline code }

end CodeParser

namespace SecurityScanEngine

/-- `StaticAnalyzer.getRuleCount()`: `initializeRules` installs exactly
four rules (SQL injection, XSS, hardcoded credentials, insecure
cryptography). -/
def STATIC_RULE_COUNT : Nat := 4

/-- `SecurityScanEngine.createErrorResult`. -/
def createErrorResult (clock : Clock) (message : String) (startTime : Nat) :
    ScanResult :=
  { success := false,
    issues := [],
    metadata :=
      { timestamp := clock.nowIso,
        duration := (clock.nowMs : Int) - (startTime : Int),
        language := "unknown",
        linesOfCode := 0,
        analyzersUsed := [],
        staticRulesApplied := 0,
        llmModel := none },
    errors := some [message] }

/-- `SecurityScanEngine.validateInput`: fail fast on empty or blank code,
then on a missing language tag (`Date.now()` is the scan's clock
instant). -/
def validateInput (clock : Clock) (code language : String) : Option ScanResult :=
  if jsTrim code = "" then
    some (createErrorResult clock "Invalid input: Code cannot be empty" clock.nowMs)
  else if jsTrim language = "" then
    some (createErrorResult clock "Invalid input: Language must be specified" clock.nowMs)
  else none

/-- One branch of the `Promise.allSettled` fan-in inside
`SecurityScanEngine.executeAnalyzers`: a fulfilled task contributes its
`AnalyzerResult`, a rejected one an empty result carrying the prefixed
failure diagnostic. -/
def settleResult (tag failMessage : String)
    (task : Except String (List VulnerabilityIssue)) : AnalyzerResult :=
  match task with
  | .ok issues => { source := tag, issues := issues, errors := [] }
  | .error reason => { source := tag, issues := [], errors := [failMessage ++ reason] }

/-- `SecurityScanEngine.executeAnalyzers`: both adapter tasks are awaited
unconditionally and settled independently (static first, llm second).
Each task argument is the settled outcome of `runStaticAnalyzer` /
`runLLMAnalyzer`. -/
def executeAnalyzers (staticTask llmTask : Except String (List VulnerabilityIssue)) :
    List AnalyzerResult :=
  [settleResult "static" "Static analyzer failed: " staticTask,
   settleResult "llm" "LLM analyzer failed: " llmTask]

/-- `SecurityScanEngine.scan`.  The nondeterministic inputs of one scan
are injected: the clock instant, the uuid supply, the content-detection
verdict, the settled static-analyzer task (its payload is what rule
evaluation produced; `runStaticAnalyzer` rejects only if rule evaluation
threw) and the remote-call outcome consumed by `LLMAnalyzer.analyze`.
`runLLMAnalyzer` can never reject, because `analyze` catches every
failure, so its settled task is always `Except.ok`.  In this total model
the parser cannot throw and the top-level `catch (error)` (the System
error path) is unreachable. -/
def scan (clock : Clock) (newId : Nat → String) (code language : String)
    (contentDetected : ScanLanguage)
    (staticTask : Except String (List VulnerabilityIssue))
    (llmCall : Except String (List LLMAnalyzer.LLMVulnerability)) : ScanResult :=
  match validateInput clock code language with
  | some validationError => validationError
  | none =>
      let detectedLanguage := LanguageDetector.detect language contentDetected
      if ! LanguageDetector.isSupported detectedLanguage then
        createErrorResult clock
          ("Unsupported language: " ++ languageString detectedLanguage ++
            ". Only JavaScript and TypeScript are supported.")
          clock.nowMs
      else
        let parsedCode := CodeParser.parse code
        let llmTask := Except.ok (LLMAnalyzer.analyze newId llmCall parsedCode)
        let analyzerResults := executeAnalyzers staticTask llmTask
        let aggregatedIssues := ResultAggregator.aggregate analyzerResults
        let deduplicatedIssues := Deduplicator.deduplicate aggregatedIssues
        let errors := ResultAggregator.getErrors analyzerResults
        let metadata : ScanMetadata :=
          { timestamp := clock.nowIso,
            duration := (clock.nowMs : Int) - (clock.nowMs : Int),
            language := languageString detectedLanguage,
            linesOfCode := parsedCode.lines.length,
            analyzersUsed := analyzerResults.map (fun r => r.source),
            staticRulesApplied := STATIC_RULE_COUNT,
            llmModel := some "gpt-4o-mini" }
        let scanResult := Formatter.format clock deduplicatedIssues metadata
        if errors.length > 0 then { scanResult with errors := some errors }
        else scanResult

end SecurityScanEngine

/-! Concrete sample data used by counterexamples and witnesses. -/

/-- A sample clock instant. -/
def sampleClock : Clock :=
  { nowMs := 1700000000000, nowIso := "2023-11-14T22:13:20.000Z" }

/-- A sample uuid supply. -/
def sampleId : Nat → String := fun n => "uuid-" ++ toString n

/-- A pattern-detector finding at line 10. -/
def sampleA : VulnerabilityIssue :=
  { id := "a", title := "SQL Injection", description := "concat query",
    severity := .high, owaspCategory := "A03:2021", line := 10,
    columnStart := 0, columnEnd := 5, fix := "parameterize",
    source := .static, codeSnippet := none }

/-- A contextual (llm) finding at line 11, duplicating `sampleA`. -/
def sampleB : VulnerabilityIssue :=
  { id := "b", title := "SQL Injection", description := "user input reaches query",
    severity := .high, owaspCategory := "A03:2021", line := 11,
    columnStart := 0, columnEnd := 5, fix := "parameterize",
    source := .llm, codeSnippet := none }

/-- A pattern-detector finding at line 12: not a duplicate of the anchor
`sampleA` (two lines away), but within tolerance of `sampleB`. -/
def sampleC : VulnerabilityIssue :=
  { id := "c", title := "SQL Injection", description := "another concat",
    severity := .high, owaspCategory := "A03:2021", line := 12,
    columnStart := 0, columnEnd := 5, fix := "parameterize",
    source := .static, codeSnippet := none }

/-! Helper lemmas about the deduplication pass. -/

/-- One pass never lengthens the list. -/
theorem dedupGo_length_le (fuel : Nat) :
    ∀ xs : List VulnerabilityIssue,
      (Deduplicator.dedupGo fuel xs).length ≤ xs.length := by
  induction fuel with
  | zero => intro xs; cases xs <;> simp [Deduplicator.dedupGo]
  | succ n ih =>
      intro xs
      cases xs with
      | nil => simp [Deduplicator.dedupGo]
      | cons x rest =>
          simp only [Deduplicator.dedupGo, List.length_cons]
          have h1 := ih (rest.filter (fun y => ! Deduplicator.isDuplicate x y))
          have h2 : (rest.filter (fun y => ! Deduplicator.isDuplicate x y)).length
              ≤ rest.length := List.length_filter_le _ _
          omega

/-- Each step of the pass splits off one whole cluster: the anchor plus
every remaining match, with the rest processed recursively. -/
theorem dedupGo_partition (fuel : Nat) :
    ∀ xs : List VulnerabilityIssue, xs.length ≤ fuel →
      ∃ cs : List (List VulnerabilityIssue),
        Deduplicator.dedupGo fuel xs = cs.map Deduplicator.mergeDuplicates
        ∧ (∀ c ∈ cs, c ≠ [])
        ∧ cs.flatten.Perm xs := by
  induction fuel with
  | zero =>
      intro xs hlen
      have hnil : xs = [] := List.length_eq_zero.1 (Nat.le_zero.1 hlen)
      subst hnil
      exact ⟨[], rfl, by simp, by simp⟩
  | succ n ih =>
      intro xs hlen
      cases xs with
      | nil => exact ⟨[], rfl, by simp, by simp⟩
      | cons x rest =>
          have hlen2 : (rest.filter (fun y => ! Deduplicator.isDuplicate x y)).length ≤ n := by
            have h1 : (rest.filter (fun y => ! Deduplicator.isDuplicate x y)).length
                ≤ rest.length := List.length_filter_le _ _
            have h2 : rest.length ≤ n := Nat.le_of_succ_le_succ (by simpa using hlen)
            omega
          obtain ⟨cs, hmap, hne, hperm⟩ := ih _ hlen2
          refine ⟨(x :: rest.filter (fun y => Deduplicator.isDuplicate x y)) :: cs,
            ?_, ?_, ?_⟩
          · simp only [Deduplicator.dedupGo, List.map_cons, hmap]
          · intro c hc
            rcases List.mem_cons.1 hc with hc | hc
            · rw [hc]
              exact List.cons_ne_nil _ _
            · exact hne c hc
          · simp only [List.flatten_cons, List.cons_append]
            refine List.Perm.cons x ?_
            have h1 : (rest.filter (fun y => Deduplicator.isDuplicate x y)
                  ++ cs.flatten).Perm
                (rest.filter (fun y => Deduplicator.isDuplicate x y)
                  ++ rest.filter (fun y => ! Deduplicator.isDuplicate x y)) :=
              List.Perm.append_left _ hperm
            exact h1.trans (List.filter_append_perm _ rest)

/-- C10: `deduplicate` partitions its input: there is a list of
non-empty clusters whose members are exactly the input findings (each
assigned to exactly one cluster) such that the output is the one merged
finding of each cluster in order; consequently the empty list maps to
the empty list, the output is never longer than the input, and a
non-empty input yields a non-empty output. -/
theorem deduplicate_partition_bounds (xs : List VulnerabilityIssue) :
    (∃ cs : List (List VulnerabilityIssue),
        Deduplicator.deduplicate xs = cs.map Deduplicator.mergeDuplicates
        ∧ (∀ c ∈ cs, c ≠ [])
        ∧ cs.flatten.Perm xs)
    ∧ Deduplicator.deduplicate ([] : List VulnerabilityIssue) = []
    ∧ (Deduplicator.deduplicate xs).length ≤ xs.length
    ∧ (xs ≠ [] → Deduplicator.deduplicate xs ≠ []) := by
  refine ⟨?_, rfl, ?_, ?_⟩
  · unfold Deduplicator.deduplicate
    split
    · next hzero =>
        have : xs = [] := List.length_eq_zero.1 hzero
        exact ⟨[], rfl, by simp, by simp [this]⟩
    · exact dedupGo_partition xs.length xs (Nat.le_refl _)
  · unfold Deduplicator.deduplicate
    split
    · simp
    · exact dedupGo_length_le _ _
  · intro hne
    unfold Deduplicator.deduplicate
    cases xs with
    | nil => exact absurd rfl hne
    | cons x rest =>
        simp only [List.length_cons, Nat.succ_ne_zero, if_false]
        simp [Deduplicator.dedupGo]

/-- Witness for `deduplicate_partition_bounds` at a concrete input. -/
theorem deduplicate_partition_bounds_witness :
    [sampleA] ≠ ([] : List VulnerabilityIssue)
    ∧ Deduplicator.deduplicate [sampleA] ≠ [] := by
  refine ⟨by decide, (deduplicate_partition_bounds [sampleA]).2.2.2 (by decide)⟩

/-- `isDuplicate` reads only the line, category and title of its two
arguments. -/
theorem isDuplicate_congr (a b a2 b2 : VulnerabilityIssue)
    (ha1 : a.line = a2.line) (ha2 : a.owaspCategory = a2.owaspCategory)
    (ha3 : a.title = a2.title) (hb1 : b.line = b2.line)
    (hb2 : b.owaspCategory = b2.owaspCategory) (hb3 : b.title = b2.title) :
    Deduplicator.isDuplicate a b = Deduplicator.isDuplicate a2 b2 := by
  unfold Deduplicator.isDuplicate
  rw [ha1, ha2, ha3, hb1, hb2, hb3]

/-- When no cluster member is llm-sourced, the merged record keeps the
anchor's line, category and title (the base record is the first
member). -/
theorem mergeDuplicates_key_of_no_llm (d : VulnerabilityIssue)
    (ds : List VulnerabilityIssue)
    (h : ∀ x ∈ d :: ds, x.source ≠ AnalyzerSource.llm) :
    (Deduplicator.mergeDuplicates (d :: ds)).line = d.line
    ∧ (Deduplicator.mergeDuplicates (d :: ds)).owaspCategory = d.owaspCategory
    ∧ (Deduplicator.mergeDuplicates (d :: ds)).title = d.title := by
  cases ds with
  | nil => simp [Deduplicator.mergeDuplicates]
  | cons e es =>
      have hfind : (d :: e :: es).find?
          (fun issue => issue.source == AnalyzerSource.llm) = none := by
        rw [List.find?_eq_none]
        intro x hx
        simpa using h x hx
      simp [Deduplicator.mergeDuplicates, hfind]

/-- Every output of the pass takes its line, category and title from some
input, when no input is llm-sourced. -/
theorem dedupGo_key_anchor (fuel : Nat) :
    ∀ xs : List VulnerabilityIssue,
      (∀ x ∈ xs, x.source ≠ AnalyzerSource.llm) →
      ∀ o ∈ Deduplicator.dedupGo fuel xs, ∃ a ∈ xs,
        o.line = a.line ∧ o.owaspCategory = a.owaspCategory ∧ o.title = a.title := by
  induction fuel with
  | zero =>
      intro xs h o ho
      cases xs <;> simp [Deduplicator.dedupGo] at ho
  | succ n ih =>
      intro xs h o ho
      cases xs with
      | nil => simp [Deduplicator.dedupGo] at ho
      | cons x rest =>
          simp only [Deduplicator.dedupGo, List.mem_cons] at ho
          rcases ho with ho | ho
          · refine ⟨x, List.mem_cons_self x rest, ?_⟩
            have hcl : ∀ y ∈ x :: rest.filter (fun z => Deduplicator.isDuplicate x z),
                y.source ≠ AnalyzerSource.llm := by
              intro y hy
              rcases List.mem_cons.1 hy with hy | hy
              · exact hy ▸ h x (List.mem_cons_self x rest)
              · exact h y (List.mem_cons_of_mem x (List.mem_of_mem_filter hy))
            have hk := mergeDuplicates_key_of_no_llm x
              (rest.filter (fun z => Deduplicator.isDuplicate x z)) hcl
            rw [ho]
            exact hk
          · have hrest : ∀ y ∈ rest.filter (fun z => ! Deduplicator.isDuplicate x z),
                y.source ≠ AnalyzerSource.llm := by
              intro y hy
              exact h y (List.mem_cons_of_mem x (List.mem_of_mem_filter hy))
            obtain ⟨a, ha, hk⟩ := ih _ hrest o ho
            exact ⟨a, List.mem_cons_of_mem x (List.mem_of_mem_filter ha), hk⟩

/-- When no input is llm-sourced, no two outputs of a single pass are
duplicates of each other. -/
theorem dedupGo_pairwise_nodup (fuel : Nat) :
    ∀ xs : List VulnerabilityIssue,
      (∀ x ∈ xs, x.source ≠ AnalyzerSource.llm) →
      (Deduplicator.dedupGo fuel xs).Pairwise
        (fun o1 o2 => Deduplicator.isDuplicate o1 o2 = false) := by
  induction fuel with
  | zero =>
      intro xs h
      cases xs <;> simp [Deduplicator.dedupGo]
  | succ n ih =>
      intro xs h
      cases xs with
      | nil => simp [Deduplicator.dedupGo]
      | cons x rest =>
          have hrest : ∀ y ∈ rest.filter (fun z => ! Deduplicator.isDuplicate x z),
              y.source ≠ AnalyzerSource.llm := by
            intro y hy
            exact h y (List.mem_cons_of_mem x (List.mem_of_mem_filter hy))
          simp only [Deduplicator.dedupGo]
          refine List.Pairwise.cons ?_ (ih _ hrest)
          intro o ho
          obtain ⟨a, ha, k1, k2, k3⟩ := dedupGo_key_anchor n _ hrest o ho
          have hcl : ∀ y ∈ x :: rest.filter (fun z => Deduplicator.isDuplicate x z),
              y.source ≠ AnalyzerSource.llm := by
            intro y hy
            rcases List.mem_cons.1 hy with hy | hy
            · exact hy ▸ h x (List.mem_cons_self x rest)
            · exact h y (List.mem_cons_of_mem x (List.mem_of_mem_filter hy))
          obtain ⟨m1, m2, m3⟩ := mergeDuplicates_key_of_no_llm x
            (rest.filter (fun z => Deduplicator.isDuplicate x z)) hcl
          have hcongr := isDuplicate_congr _ o x a m1 m2 m3 k1 k2 k3
          rw [hcongr]
          have := (List.mem_filter.1 ha).2
          simpa using this

/-- A pass leaves a pairwise-duplicate-free list unchanged. -/
theorem dedupGo_eq_self_of_pairwise (fuel : Nat) :
    ∀ ys : List VulnerabilityIssue, ys.length ≤ fuel →
      ys.Pairwise (fun o1 o2 => Deduplicator.isDuplicate o1 o2 = false) →
      Deduplicator.dedupGo fuel ys = ys := by
  induction fuel with
  | zero =>
      intro ys hlen _
      have : ys = [] := List.length_eq_zero.1 (Nat.le_zero.1 hlen)
      simp [this, Deduplicator.dedupGo]
  | succ n ih =>
      intro ys hlen hpw
      cases ys with
      | nil => simp [Deduplicator.dedupGo]
      | cons y rest =>
          have hhead : ∀ z ∈ rest, Deduplicator.isDuplicate y z = false :=
            fun z hz => List.rel_of_pairwise_cons hpw hz
          have hdups : rest.filter (fun z => Deduplicator.isDuplicate y z) = [] := by
            rw [List.filter_eq_nil_iff]
            intro z hz
            simp [hhead z hz]
          have hothers : rest.filter (fun z => ! Deduplicator.isDuplicate y z) = rest := by
            rw [List.filter_eq_self]
            intro z hz
            simp [hhead z hz]
          simp only [Deduplicator.dedupGo, hdups, hothers]
          rw [show Deduplicator.mergeDuplicates [y] = y from rfl]
          have hlen2 : rest.length ≤ n := by
            simpa using Nat.le_of_succ_le_succ (by simpa using hlen)
          rw [ih rest hlen2 (List.Pairwise.of_cons hpw)]

/-- C1 counterexample: on three same-titled, same-category findings at
lines 10 (pattern), 11 (llm) and 12 (pattern), the first pass merges
lines 10 and 11 into a record based at line 11, which the second pass
then merges with line 12 — `deduplicate` is not idempotent, and the two
outputs of the single pass still satisfy the duplicate predicate. -/
theorem deduplicate_idempotent_counterexample :
    ¬ (Deduplicator.deduplicate (Deduplicator.deduplicate [sampleA, sampleB, sampleC])
          = Deduplicator.deduplicate [sampleA, sampleB, sampleC]
        ∧ (Deduplicator.deduplicate [sampleA, sampleB, sampleC]).Pairwise
            (fun o1 o2 => Deduplicator.isDuplicate o1 o2 = false)) := by
  decide

/-- C1 (amended): deduplication is idempotent — and no two findings of a
single pass's output satisfy the duplicate predicate — provided no input
finding carries the llm provenance (then every cluster's merged record
keeps its anchor's line, category and title; an llm-sourced member may
re-base a merged record on its own line, defeating idempotence, as the
counterexample shows). -/
theorem deduplicate_idempotent_no_llm (xs : List VulnerabilityIssue)
    (h : ∀ x ∈ xs, x.source ≠ AnalyzerSource.llm) :
    Deduplicator.deduplicate (Deduplicator.deduplicate xs) = Deduplicator.deduplicate xs
    ∧ (Deduplicator.deduplicate xs).Pairwise
        (fun o1 o2 => Deduplicator.isDuplicate o1 o2 = false) := by
  have hpw : (Deduplicator.deduplicate xs).Pairwise
      (fun o1 o2 => Deduplicator.isDuplicate o1 o2 = false) := by
    unfold Deduplicator.deduplicate
    split
    · simp
    · exact dedupGo_pairwise_nodup _ xs h
  refine ⟨?_, hpw⟩
  by_cases hout : (Deduplicator.deduplicate xs).length = 0
  · rw [List.length_eq_zero.1 hout]
    rfl
  · conv_lhs => rw [Deduplicator.deduplicate]
    rw [if_neg hout]
    exact dedupGo_eq_self_of_pairwise _ _ (Nat.le_refl _) hpw

/-- Witness for `deduplicate_idempotent_no_llm` at a concrete input. -/
theorem deduplicate_idempotent_no_llm_witness :
    Deduplicator.deduplicate (Deduplicator.deduplicate [sampleA, sampleC])
      = Deduplicator.deduplicate [sampleA, sampleC] := by
  exact (deduplicate_idempotent_no_llm [sampleA, sampleC] (by decide)).1

/-- A pattern finding at line 10 with an OWASP category carrying a
descriptive suffix. -/
def sampleD10 : VulnerabilityIssue :=
  { id := "d10", title := "SQL Injection", description := "concat",
    severity := .high, owaspCategory := "A03:2021 - Injection", line := 10,
    columnStart := 0, columnEnd := 5, fix := "parameterize",
    source := .static, codeSnippet := none }

/-- An llm finding at line 11 whose category differs only in suffix
formatting and whose title is 13/18-similar to `sampleD10`. -/
def sampleD11 : VulnerabilityIssue :=
  { id := "d11", title := "SQL Injection Risk", description := "tainted",
    severity := .medium, owaspCategory := "A03:2021 Injection", line := 11,
    columnStart := 2, columnEnd := 9, fix := "bind parameters",
    source := .llm, codeSnippet := none }

/-- Same as `sampleD11` but at line 13: outside the ±1 tolerance of
line 10. -/
def sampleD13 : VulnerabilityIssue :=
  { id := "d13", title := "SQL Injection Risk", description := "tainted",
    severity := .medium, owaspCategory := "A03:2021 Injection", line := 13,
    columnStart := 2, columnEnd := 9, fix := "bind parameters",
    source := .llm, codeSnippet := none }

/-- A `String` of length zero is empty. -/
theorem string_length_zero (s : String) (h : s.length = 0) : s = "" := by
  cases s with
  | mk data =>
      cases data with
      | nil => rfl
      | cons c cs => simp [String.length] at h

/-- C7: two findings are judged duplicates exactly when their lines
differ by at most 1, their category codes agree after normalization, and
their title similarity is at least `7/10`; off the source's two
shortcut branches the similarity is literally
`1 − editDistance/maxLength` over lowercased trimmed titles (and `1` on
equal normalized titles).  Concretely, such findings at lines 10 and 11
merge into one while at lines 10 and 13 they stay separate. -/
theorem isDuplicate_characterization :
    (∀ i1 i2 : VulnerabilityIssue,
      Deduplicator.isDuplicate i1 i2 = true ↔
        ((i1.line - i2.line).natAbs ≤ 1
          ∧ Deduplicator.normalizeOwaspCategory i1.owaspCategory
              = Deduplicator.normalizeOwaspCategory i2.owaspCategory
          ∧ (7 : ℚ)/10 ≤ Deduplicator.calculateSimilarity i1.title i2.title))
    ∧ (∀ s1 s2 : String, jsTrim (jsToLower s1) ≠ jsTrim (jsToLower s2) →
        Deduplicator.calculateSimilarity s1 s2 =
          1 - (Deduplicator.levenshteinDistance (jsTrim (jsToLower s1))
                (jsTrim (jsToLower s2)) : ℚ)
              / ((max (jsTrim (jsToLower s1)).length
                  (jsTrim (jsToLower s2)).length : Nat) : ℚ))
    ∧ (∀ s1 s2 : String, jsTrim (jsToLower s1) = jsTrim (jsToLower s2) →
        Deduplicator.calculateSimilarity s1 s2 = 1)
    ∧ (Deduplicator.deduplicate [sampleD10, sampleD11]).length = 1
    ∧ Deduplicator.deduplicate [sampleD10, sampleD13] = [sampleD10, sampleD13] := by
  refine ⟨?_, ?_, ?_, by decide, by decide⟩
  · intro i1 i2
    by_cases hA : (i1.line - i2.line).natAbs ≤ Deduplicator.LINE_TOLERANCE
    · by_cases hB : Deduplicator.normalizeOwaspCategory i1.owaspCategory
          = Deduplicator.normalizeOwaspCategory i2.owaspCategory
      · have hred : Deduplicator.isDuplicate i1 i2
            = decide (Deduplicator.FUZZY_MATCH_THRESHOLD
                ≤ Deduplicator.calculateSimilarity i1.title i2.title) := by
          unfold Deduplicator.isDuplicate
          rw [if_neg (not_not.2 hA), if_neg (not_not.2 hB)]
        rw [hred, decide_eq_true_eq]
        exact ⟨fun hs => ⟨hA, hB, hs⟩, fun hc => hc.2.2⟩
      · have hred : Deduplicator.isDuplicate i1 i2 = false := by
          unfold Deduplicator.isDuplicate
          rw [if_neg (not_not.2 hA), if_pos hB]
        exact iff_of_false (by simp [hred]) (fun hc => hB hc.2.1)
    · have hred : Deduplicator.isDuplicate i1 i2 = false := by
        unfold Deduplicator.isDuplicate
        rw [if_pos hA]
      exact iff_of_false (by simp [hred]) (fun hc => hA hc.1)
  · intro s1 s2 hne
    unfold Deduplicator.calculateSimilarity
    rw [if_neg hne]
    have hmax : ¬ (max (jsTrim (jsToLower s1)).length (jsTrim (jsToLower s2)).length = 0) := by
      intro h0
      have h1 : (jsTrim (jsToLower s1)).length = 0 := by omega
      have h2 : (jsTrim (jsToLower s2)).length = 0 := by omega
      exact hne ((string_length_zero _ h1).trans (string_length_zero _ h2).symm)
    rw [if_neg hmax]
  · intro s1 s2 heq
    unfold Deduplicator.calculateSimilarity
    rw [if_pos heq]

/-- Witness for `isDuplicate_characterization` at concrete inputs. -/
theorem isDuplicate_characterization_witness :
    Deduplicator.isDuplicate sampleD10 sampleD11 = true
    ∧ Deduplicator.calculateSimilarity "SQL Injection" "SQL Injection Risk"
        = 13/18
    ∧ Deduplicator.calculateSimilarity " SQL " "sql" = 1 := by
  refine ⟨(isDuplicate_characterization.1 sampleD10 sampleD11).mpr (by decide), ?_, ?_⟩
  · rw [isDuplicate_characterization.2.1 "SQL Injection" "SQL Injection Risk" (by decide)]
    decide
  · exact isDuplicate_characterization.2.2.1 " SQL " "sql" (by decide)

/-- The source's `reduce` keeping the strictly larger measure returns a
member whose measure dominates the whole list. -/
theorem foldl_max_measure (g : VulnerabilityIssue → Nat)
    (ds : List VulnerabilityIssue) :
    ∀ d : VulnerabilityIssue,
      (ds.foldl (fun best current => if g best < g current then current else best) d)
        ∈ d :: ds
      ∧ ∀ x ∈ d :: ds,
          g x ≤ g (ds.foldl
            (fun best current => if g best < g current then current else best) d) := by
  induction ds with
  | nil =>
      intro d
      exact ⟨List.mem_singleton.2 rfl, by
        intro x hx
        rw [List.mem_singleton.1 hx]
        exact Nat.le_refl _⟩
  | cons c cs ih =>
      intro d
      simp only [List.foldl_cons]
      obtain ⟨hmem, hbound⟩ := ih (if g d < g c then c else d)
      constructor
      · rcases List.mem_cons.1 hmem with hr | hr
        · rw [hr]
          split
          · exact List.mem_cons_of_mem d (List.mem_cons_self c cs)
          · exact List.mem_cons_self d (c :: cs)
        · exact List.mem_cons_of_mem d (List.mem_cons_of_mem c hr)
      · intro x hx
        rcases List.mem_cons.1 hx with hx | hx
        · subst hx
          refine Nat.le_trans ?_ (hbound _ (List.mem_cons_self _ cs))
          split
          · next hlt => exact Nat.le_of_lt hlt
          · exact Nat.le_refl _
        · rcases List.mem_cons.1 hx with hx | hx
          · subst hx
            refine Nat.le_trans ?_ (hbound _ (List.mem_cons_self _ cs))
            split
            · exact Nat.le_refl _
            · next hnlt => exact Nat.le_of_not_lt hnlt
          · exact hbound x (List.mem_cons_of_mem _ hx)

/-- `getHighestSeverity` of a non-empty list is a member of minimal
severity rank (Critical ranks 0, Info 4). -/
theorem getHighestSeverity_spec (l : List SeverityLevel) (h : l ≠ []) :
    Deduplicator.getHighestSeverity l ∈ l
    ∧ ∀ s ∈ l, Formatter.severityOrder (Deduplicator.getHighestSeverity l)
        ≤ Formatter.severityOrder s := by
  unfold Deduplicator.getHighestSeverity Deduplicator.severityOrderList
  by_cases h1 : SeverityLevel.critical ∈ l
  · rw [List.find?_cons_of_pos _ (by simpa [List.contains] using List.elem_eq_true_of_mem h1)]
    exact ⟨h1, fun s _ => Nat.zero_le _⟩
  · rw [List.find?_cons_of_neg _ (by
      simp only [List.contains] at *
      simpa using h1)]
    by_cases h2 : SeverityLevel.high ∈ l
    · rw [List.find?_cons_of_pos _ (by simpa [List.contains] using List.elem_eq_true_of_mem h2)]
      refine ⟨h2, fun s hs => ?_⟩
      cases s <;> first
        | exact absurd hs h1
        | simp [Formatter.severityOrder]
    · rw [List.find?_cons_of_neg _ (by
        simp only [List.contains] at *
        simpa using h2)]
      by_cases h3 : SeverityLevel.medium ∈ l
      · rw [List.find?_cons_of_pos _ (by simpa [List.contains] using List.elem_eq_true_of_mem h3)]
        refine ⟨h3, fun s hs => ?_⟩
        cases s <;> first
          | exact absurd hs h1
          | exact absurd hs h2
          | simp [Formatter.severityOrder]
      · rw [List.find?_cons_of_neg _ (by
          simp only [List.contains] at *
          simpa using h3)]
        by_cases h4 : SeverityLevel.low ∈ l
        · rw [List.find?_cons_of_pos _ (by simpa [List.contains] using List.elem_eq_true_of_mem h4)]
          refine ⟨h4, fun s hs => ?_⟩
          cases s <;> first
            | exact absurd hs h1
            | exact absurd hs h2
            | exact absurd hs h3
            | simp [Formatter.severityOrder]
        · rw [List.find?_cons_of_neg _ (by
            simp only [List.contains] at *
            simpa using h4)]
          by_cases h5 : SeverityLevel.info ∈ l
          · rw [List.find?_cons_of_pos _ (by simpa [List.contains] using List.elem_eq_true_of_mem h5)]
            refine ⟨h5, fun s hs => ?_⟩
            cases s <;> first
              | exact absurd hs h1
              | exact absurd hs h2
              | exact absurd hs h3
              | exact absurd hs h4
              | simp [Formatter.severityOrder]
          · exfalso
            obtain ⟨s, hs⟩ := List.exists_mem_of_ne_nil l h
            cases s
            · exact h1 hs
            · exact h2 hs
            · exact h3 hs
            · exact h4 hs
            · exact h5 hs

/-- A non-empty list whose elements all coincide dedups to one element. -/
theorem dedup_length_le_one_of_const (l : List AnalyzerSource) (a : AnalyzerSource)
    (h : ∀ x ∈ l, x = a) : l.dedup.length ≤ 1 := by
  induction l with
  | nil => simp
  | cons x xs ih =>
      have hx : x = a := h x (List.mem_cons_self x xs)
      have hxs : ∀ y ∈ xs, y = a := fun y hy => h y (List.mem_cons_of_mem x hy)
      by_cases hmem : x ∈ xs
      · rw [List.dedup_cons_of_mem hmem]
        exact ih hxs
      · have hnil : xs = [] := by
          cases xs with
          | nil => rfl
          | cons y ys =>
              exfalso
              apply hmem
              have hy : y = a := hxs y (List.mem_cons_self y ys)
              rw [hx, ← hy]
              exact List.mem_cons_self y ys
        subst hnil
        simp

/-- C8: the merge policy for a cluster of size greater than one: the
merged severity is the maximum severity present (Critical highest), the
description and remediation text are longest-in-cluster member strings,
the base record (title, line, columns, snippet) comes from an llm-sourced
member when one exists and from the first member otherwise, and the
provenance becomes `merged` exactly when more than one distinct tag is
present (else the single tag is kept). -/
theorem mergeDuplicates_policy (d1 d2 : VulnerabilityIssue)
    (ds : List VulnerabilityIssue) :
    ((Deduplicator.mergeDuplicates (d1 :: d2 :: ds)).severity
        ∈ (d1 :: d2 :: ds).map (fun issue => issue.severity)
      ∧ ∀ x ∈ d1 :: d2 :: ds,
          Formatter.severityOrder (Deduplicator.mergeDuplicates (d1 :: d2 :: ds)).severity
            ≤ Formatter.severityOrder x.severity)
    ∧ ((∃ x ∈ d1 :: d2 :: ds,
          (Deduplicator.mergeDuplicates (d1 :: d2 :: ds)).description = x.description)
      ∧ ∀ x ∈ d1 :: d2 :: ds,
          x.description.length
            ≤ (Deduplicator.mergeDuplicates (d1 :: d2 :: ds)).description.length)
    ∧ ((∃ x ∈ d1 :: d2 :: ds,
          (Deduplicator.mergeDuplicates (d1 :: d2 :: ds)).fix = x.fix)
      ∧ ∀ x ∈ d1 :: d2 :: ds,
          x.fix.length ≤ (Deduplicator.mergeDuplicates (d1 :: d2 :: ds)).fix.length)
    ∧ (((∃ x ∈ d1 :: d2 :: ds, x.source = AnalyzerSource.llm) →
          ∃ b ∈ d1 :: d2 :: ds, b.source = AnalyzerSource.llm
            ∧ (Deduplicator.mergeDuplicates (d1 :: d2 :: ds)).title = b.title
            ∧ (Deduplicator.mergeDuplicates (d1 :: d2 :: ds)).line = b.line
            ∧ (Deduplicator.mergeDuplicates (d1 :: d2 :: ds)).columnStart = b.columnStart
            ∧ (Deduplicator.mergeDuplicates (d1 :: d2 :: ds)).columnEnd = b.columnEnd
            ∧ (Deduplicator.mergeDuplicates (d1 :: d2 :: ds)).codeSnippet = b.codeSnippet)
      ∧ ((∀ x ∈ d1 :: d2 :: ds, x.source ≠ AnalyzerSource.llm) →
          (Deduplicator.mergeDuplicates (d1 :: d2 :: ds)).title = d1.title
            ∧ (Deduplicator.mergeDuplicates (d1 :: d2 :: ds)).line = d1.line
            ∧ (Deduplicator.mergeDuplicates (d1 :: d2 :: ds)).columnStart = d1.columnStart
            ∧ (Deduplicator.mergeDuplicates (d1 :: d2 :: ds)).columnEnd = d1.columnEnd
            ∧ (Deduplicator.mergeDuplicates (d1 :: d2 :: ds)).codeSnippet = d1.codeSnippet))
    ∧ (((∃ x ∈ d1 :: d2 :: ds, x.source ≠ d1.source) →
          (Deduplicator.mergeDuplicates (d1 :: d2 :: ds)).source = AnalyzerSource.merged)
      ∧ ((∀ x ∈ d1 :: d2 :: ds, x.source = d1.source) →
          (Deduplicator.mergeDuplicates (d1 :: d2 :: ds)).source = d1.source)) := by
  have hsev : (Deduplicator.mergeDuplicates (d1 :: d2 :: ds)).severity
      = Deduplicator.getHighestSeverity ((d1 :: d2 :: ds).map (fun issue => issue.severity)) := rfl
  have hdesc : (Deduplicator.mergeDuplicates (d1 :: d2 :: ds)).description
      = ((d2 :: ds).foldl (fun best current =>
          if best.description.length < current.description.length then current else best)
          d1).description := rfl
  have hfix : (Deduplicator.mergeDuplicates (d1 :: d2 :: ds)).fix
      = ((d2 :: ds).foldl (fun best current =>
          if best.fix.length < current.fix.length then current else best) d1).fix := rfl
  have htitle : (Deduplicator.mergeDuplicates (d1 :: d2 :: ds)).title
      = (((d1 :: d2 :: ds).find?
          (fun issue => issue.source == AnalyzerSource.llm)).getD d1).title := rfl
  have hline : (Deduplicator.mergeDuplicates (d1 :: d2 :: ds)).line
      = (((d1 :: d2 :: ds).find?
          (fun issue => issue.source == AnalyzerSource.llm)).getD d1).line := rfl
  have hcs : (Deduplicator.mergeDuplicates (d1 :: d2 :: ds)).columnStart
      = (((d1 :: d2 :: ds).find?
          (fun issue => issue.source == AnalyzerSource.llm)).getD d1).columnStart := rfl
  have hce : (Deduplicator.mergeDuplicates (d1 :: d2 :: ds)).columnEnd
      = (((d1 :: d2 :: ds).find?
          (fun issue => issue.source == AnalyzerSource.llm)).getD d1).columnEnd := rfl
  have hsnip : (Deduplicator.mergeDuplicates (d1 :: d2 :: ds)).codeSnippet
      = (((d1 :: d2 :: ds).find?
          (fun issue => issue.source == AnalyzerSource.llm)).getD d1).codeSnippet := rfl
  have hsrc : (Deduplicator.mergeDuplicates (d1 :: d2 :: ds)).source
      = (if ((d1 :: d2 :: ds).map (fun issue => issue.source)).dedup.length > 1
          then AnalyzerSource.merged
          else (((d1 :: d2 :: ds).find?
            (fun issue => issue.source == AnalyzerSource.llm)).getD d1).source) := rfl
  refine ⟨?_, ?_, ?_, ⟨?_, ?_⟩, ⟨?_, ?_⟩⟩
  · -- severity is the maximum present
    obtain ⟨hmem, hmin⟩ := getHighestSeverity_spec
      ((d1 :: d2 :: ds).map (fun issue => issue.severity)) (by simp)
    rw [hsev]
    exact ⟨hmem, fun x hx => hmin _ (List.mem_map_of_mem _ hx)⟩
  · -- longest description
    obtain ⟨hmem, hbound⟩ := foldl_max_measure (fun issue => issue.description.length)
      (d2 :: ds) d1
    rw [hdesc]
    exact ⟨⟨_, hmem, rfl⟩, fun x hx => hbound x hx⟩
  · -- longest fix
    obtain ⟨hmem, hbound⟩ := foldl_max_measure (fun issue => issue.fix.length)
      (d2 :: ds) d1
    rw [hfix]
    exact ⟨⟨_, hmem, rfl⟩, fun x hx => hbound x hx⟩
  · -- base record: an llm member exists
    intro hex
    have hsome : ((d1 :: d2 :: ds).find?
        (fun issue => issue.source == AnalyzerSource.llm)).isSome := by
      rw [List.find?_isSome]
      obtain ⟨x, hx, hxsrc⟩ := hex
      exact ⟨x, hx, by simp [hxsrc]⟩
    obtain ⟨b, hb⟩ := Option.isSome_iff_exists.1 hsome
    refine ⟨b, List.mem_of_find?_eq_some hb, by simpa using List.find?_some hb,
      ?_, ?_, ?_, ?_, ?_⟩
    · rw [htitle, hb, Option.getD_some]
    · rw [hline, hb, Option.getD_some]
    · rw [hcs, hb, Option.getD_some]
    · rw [hce, hb, Option.getD_some]
    · rw [hsnip, hb, Option.getD_some]
  · -- base record: no llm member
    intro hnone
    have hfind : (d1 :: d2 :: ds).find?
        (fun issue => issue.source == AnalyzerSource.llm) = none := by
      rw [List.find?_eq_none]
      intro x hx
      simpa using hnone x hx
    exact ⟨by rw [htitle, hfind, Option.getD_none],
      by rw [hline, hfind, Option.getD_none],
      by rw [hcs, hfind, Option.getD_none],
      by rw [hce, hfind, Option.getD_none],
      by rw [hsnip, hfind, Option.getD_none]⟩
  · -- provenance: several distinct tags force `merged`
    intro hex
    obtain ⟨x, hx, hxne⟩ := hex
    rw [hsrc]
    rw [if_pos ?_]
    by_contra hle
    have hle2 : ((d1 :: d2 :: ds).map (fun issue => issue.source)).dedup.length ≤ 1 := by
      omega
    have hne : ((d1 :: d2 :: ds).map (fun issue => issue.source)).dedup ≠ [] := by
      intro hnil
      have := (List.dedup_eq_nil _).1 hnil
      simp at this
    obtain ⟨a, ha⟩ : ∃ a, ((d1 :: d2 :: ds).map (fun issue => issue.source)).dedup = [a] := by
      cases hdd : ((d1 :: d2 :: ds).map (fun issue => issue.source)).dedup with
      | nil => exact absurd hdd hne
      | cons a rest =>
          cases rest with
          | nil => exact ⟨a, rfl⟩
          | cons b bs => rw [hdd] at hle2; simp at hle2
    have hall : ∀ s ∈ (d1 :: d2 :: ds).map (fun issue => issue.source), s = a := by
      intro s hsmem
      have := List.mem_dedup.2 hsmem
      rw [ha] at this
      exact List.mem_singleton.1 this
    have h1 : d1.source = a := hall d1.source (List.mem_map_of_mem _ (List.mem_cons_self _ _))
    have h2 : x.source = a := hall x.source (List.mem_map_of_mem _ hx)
    exact hxne (h2.trans h1.symm)
  · -- provenance: a single tag is kept
    intro hall
    have hle : ((d1 :: d2 :: ds).map (fun issue => issue.source)).dedup.length ≤ 1 := by
      apply dedup_length_le_one_of_const _ d1.source
      intro s hsmem
      obtain ⟨x, hx, hxs⟩ := List.mem_map.1 hsmem
      rw [← hxs]
      exact hall x hx
    rw [hsrc, if_neg (by omega)]
    rcases hfind : (d1 :: d2 :: ds).find? (fun issue => issue.source == AnalyzerSource.llm) with
      _ | b
    · rw [hfind, Option.getD_none]
    · rw [hfind, Option.getD_some]
      exact hall b (List.mem_of_find?_eq_some hfind)

/-- Witness for `mergeDuplicates_policy` at a concrete two-element
cluster of pattern findings. -/
theorem mergeDuplicates_policy_witness :
    (Deduplicator.mergeDuplicates [sampleA, sampleC]).title = sampleA.title
    ∧ (Deduplicator.mergeDuplicates [sampleA, sampleC]).source = sampleA.source
    ∧ Formatter.severityOrder (Deduplicator.mergeDuplicates [sampleA, sampleC]).severity
        ≤ Formatter.severityOrder sampleA.severity := by
  have h := mergeDuplicates_policy sampleA sampleC []
  exact ⟨(h.2.2.2.1.2 (by decide)).1, h.2.2.2.2.2 (by decide),
    h.1.2 sampleA (by decide)⟩

/-- C9: severity strings from remote-response elements are normalized
case-insensitively onto the canonical five-value enum, and every
unrecognized value maps to Medium. -/
theorem normalizeSeverity_spec :
    (∀ s t : String, jsToLower s = jsToLower t →
        LLMAnalyzer.normalizeSeverity s = LLMAnalyzer.normalizeSeverity t)
    ∧ (∀ s : String, jsToLower s = "critical" →
        LLMAnalyzer.normalizeSeverity s = SeverityLevel.critical)
    ∧ (∀ s : String, jsToLower s = "high" →
        LLMAnalyzer.normalizeSeverity s = SeverityLevel.high)
    ∧ (∀ s : String, jsToLower s = "medium" →
        LLMAnalyzer.normalizeSeverity s = SeverityLevel.medium)
    ∧ (∀ s : String, jsToLower s = "low" →
        LLMAnalyzer.normalizeSeverity s = SeverityLevel.low)
    ∧ (∀ s : String, jsToLower s = "info" →
        LLMAnalyzer.normalizeSeverity s = SeverityLevel.info)
    ∧ (∀ s : String, jsToLower s ≠ "critical" → jsToLower s ≠ "high" →
        jsToLower s ≠ "medium" → jsToLower s ≠ "low" → jsToLower s ≠ "info" →
        LLMAnalyzer.normalizeSeverity s = SeverityLevel.medium) := by
  refine ⟨?_, ?_, ?_, ?_, ?_, ?_, ?_⟩
  · intro s t h
    unfold LLMAnalyzer.normalizeSeverity
    rw [h]
  · intro s hs
    unfold LLMAnalyzer.normalizeSeverity
    rw [hs]
    simp
  · intro s hs
    unfold LLMAnalyzer.normalizeSeverity
    rw [hs]
    simp
  · intro s hs
    unfold LLMAnalyzer.normalizeSeverity
    rw [hs]
    simp
  · intro s hs
    unfold LLMAnalyzer.normalizeSeverity
    rw [hs]
    simp
  · intro s hs
    unfold LLMAnalyzer.normalizeSeverity
    rw [hs]
    simp
  · intro s h1 h2 h3 h4 h5
    unfold LLMAnalyzer.normalizeSeverity
    rw [if_neg h1, if_neg h2, if_neg h3, if_neg h4, if_neg h5]

/-- Witness for `normalizeSeverity_spec` at concrete inputs. -/
theorem normalizeSeverity_spec_witness :
    LLMAnalyzer.normalizeSeverity "CRITICAL" = LLMAnalyzer.normalizeSeverity "critical"
    ∧ LLMAnalyzer.normalizeSeverity "Critical" = SeverityLevel.critical
    ∧ LLMAnalyzer.normalizeSeverity "banana" = SeverityLevel.medium := by
  exact ⟨normalizeSeverity_spec.1 "CRITICAL" "critical" (by decide),
    normalizeSeverity_spec.2.1 "Critical" (by decide),
    normalizeSeverity_spec.2.2.2.2.2.2 "banana" (by decide) (by decide) (by decide)
      (by decide) (by decide)⟩

/-- The Formatter's sort key: severity rank, then line number. -/
def sortKey (i : VulnerabilityIssue) : Nat × Int :=
  (Formatter.severityOrder i.severity, i.line)

/-- `jsOrInt n 0` is the identity: a zero stays zero, anything else is
kept. -/
theorem jsOrInt_zero (n : Int) : jsOrInt n 0 = n := by
  unfold jsOrInt
  split <;> simp_all

/-- Validation keeps the sort key. -/
theorem validateIssue_sortKey (i : VulnerabilityIssue) :
    sortKey (Formatter.validateIssue i) = sortKey i := by
  unfold sortKey Formatter.validateIssue
  simp [jsOrInt_zero]

/-- Id assignment keeps the sort key of every position. -/
theorem ensureUniqueIdsGo_sortKey (ts : Nat) :
    ∀ (idx : Nat) (l : List VulnerabilityIssue),
      (Formatter.ensureUniqueIdsGo ts idx l).map sortKey = l.map sortKey := by
  intro idx l
  induction l generalizing idx with
  | nil => rfl
  | cons i rest ih =>
      simp only [Formatter.ensureUniqueIdsGo, List.map_cons]
      rw [ih]
      congr 1
      by_cases h : jsTrim i.id = ""
      · rw [if_pos h]
        simp only [sortKey]
      · rw [if_neg h]

/-- Equal sort keys are related by the comparator order. -/
theorem sortLe_of_sortKey_eq (a b : VulnerabilityIssue)
    (h : sortKey a = sortKey b) : Formatter.sortLe a b := by
  unfold sortKey at h
  exact Or.inr ⟨congrArg Prod.fst h, le_of_eq (congrArg Prod.snd h)⟩

/-- Inserting an element does not reorder the elements sharing any fixed
sort key: the inserted element lands before every equal-key element. -/
theorem orderedInsert_filter_key (a : VulnerabilityIssue) (k : Nat × Int) :
    ∀ l : List VulnerabilityIssue,
      (l.orderedInsert Formatter.sortLe a).filter (fun x => sortKey x == k)
        = if sortKey a == k then a :: l.filter (fun x => sortKey x == k)
          else l.filter (fun x => sortKey x == k) := by
  intro l
  induction l with
  | nil =>
      by_cases hak : sortKey a == k
      · simp [List.orderedInsert, List.filter_cons, hak]
      · simp [List.orderedInsert, List.filter_cons, hak]
  | cons b rest ih =>
      simp only [List.orderedInsert]
      by_cases hab : Formatter.sortLe a b
      · rw [if_pos hab]
        by_cases hak : sortKey a == k
        · simp [List.filter_cons, hak]
        · simp [List.filter_cons, hak]
      · rw [if_neg hab]
        have hbk : ¬ (sortKey b == k ∧ sortKey a == k) := by
          rintro ⟨h1, h2⟩
          exact hab (sortLe_of_sortKey_eq a b
            ((beq_iff_eq.1 h2).trans (beq_iff_eq.1 h1).symm))
        by_cases hb : sortKey b == k
        · have hak : ¬ (sortKey a == k) := fun h => hbk ⟨hb, h⟩
          simp only [List.filter_cons, hb, if_pos, ih, hak, if_neg]
          simp [hak, hb]
        · simp only [List.filter_cons]
          simp only [hb]
          rw [ih]
          by_cases hak : sortKey a == k
          · simp [hak, hb]
          · simp [hak, hb]

/-- The insertion sort is stable: filtering any fixed sort key commutes
with sorting. -/
theorem insertionSort_filter_key (k : Nat × Int) :
    ∀ l : List VulnerabilityIssue,
      ((List.insertionSort Formatter.sortLe l).filter (fun x => sortKey x == k))
        = l.filter (fun x => sortKey x == k) := by
  intro l
  induction l with
  | nil => rfl
  | cons a rest ih =>
      simp only [List.insertionSort]
      rw [orderedInsert_filter_key]
      by_cases hak : sortKey a == k
      · simp [hak, ih, List.filter_cons]
      · simp [hak, ih, List.filter_cons]

/-- The comparator order only reads the sort keys. -/
theorem sortLe_congr_key (a b a2 b2 : VulnerabilityIssue)
    (ha : sortKey a = sortKey a2) (hb : sortKey b = sortKey b2) :
    Formatter.sortLe a b ↔ Formatter.sortLe a2 b2 := by
  have ha1 : Formatter.severityOrder a.severity = Formatter.severityOrder a2.severity :=
    congrArg Prod.fst ha
  have ha2 : a.line = a2.line := congrArg Prod.snd ha
  have hb1 : Formatter.severityOrder b.severity = Formatter.severityOrder b2.severity :=
    congrArg Prod.fst hb
  have hb2 : b.line = b2.line := congrArg Prod.snd hb
  unfold Formatter.sortLe
  rw [ha1, ha2, hb1, hb2]

/-- C6: the issues list emitted by `Formatter.format` is sorted by
severity rank ascending then line ascending, the pre-sort pipeline
(id assignment and validation) preserves every finding's sort key in
input order, and findings tied on both keys keep their relative input
order (stability of the sort). -/
theorem format_sorted_stable (clock : Clock) (issues : List VulnerabilityIssue)
    (md : ScanMetadata) :
    ((Formatter.format clock issues md).issues).Pairwise Formatter.sortLe
    ∧ (Formatter.validateIssues (Formatter.ensureUniqueIds clock.nowMs issues)).map sortKey
        = issues.map sortKey
    ∧ ∀ k : Nat × Int,
        ((Formatter.format clock issues md).issues).filter (fun i => sortKey i == k)
          = (Formatter.validateIssues (Formatter.ensureUniqueIds clock.nowMs issues)).filter
              (fun i => sortKey i == k) := by
  have hform : (Formatter.format clock issues md).issues
      = Formatter.validateIssues
          (Formatter.sortIssues (Formatter.ensureUniqueIds clock.nowMs issues)) := rfl
  refine ⟨?_, ?_, ?_⟩
  · rw [hform]
    have hsorted : (Formatter.sortIssues
        (Formatter.ensureUniqueIds clock.nowMs issues)).Pairwise Formatter.sortLe :=
      List.sorted_insertionSort Formatter.sortLe _
    exact List.Pairwise.map _
      (fun a b hab =>
        (sortLe_congr_key _ _ a b (validateIssue_sortKey a) (validateIssue_sortKey b)).2 hab)
      hsorted
  · unfold Formatter.validateIssues
    rw [List.map_map]
    rw [show sortKey ∘ Formatter.validateIssue = sortKey from funext validateIssue_sortKey]
    exact ensureUniqueIdsGo_sortKey clock.nowMs 0 issues
  · intro k
    rw [hform]
    unfold Formatter.validateIssues
    rw [List.filter_map, List.filter_map]
    congr 1
    have hcongr : ∀ l : List VulnerabilityIssue,
        l.filter ((fun i => sortKey i == k) ∘ Formatter.validateIssue)
          = l.filter (fun i => sortKey i == k) := by
      intro l
      apply List.filter_congr
      intro x _
      simp [Function.comp, validateIssue_sortKey]
    rw [hcongr, hcongr]
    exact insertionSort_filter_key k _

/-- `jsOr` with the empty default is the identity. -/
theorem jsOr_empty_default (s : String) : jsOr s "" = s := by
  unfold jsOr
  split <;> simp_all

/-- `jsOr` with a non-empty default never returns the empty string. -/
theorem jsOr_ne_empty (s d : String) (hd : d ≠ "") : jsOr s d ≠ "" := by
  unfold jsOr
  split <;> simp_all

/-- A generated id is never empty (it contains dash separators). -/
theorem generateId_ne_empty (ts : Nat) (i : VulnerabilityIssue) (idx : Nat) :
    Formatter.generateId ts i idx ≠ "" := by
  unfold Formatter.generateId
  intro h
  have hlen := congrArg String.length h
  simp only [String.length_append,
    show ("-" : String).length = 1 from rfl,
    show ("" : String).length = 0 from rfl] at hlen
  omega

/-- Every output of the id-assignment pass keeps position fields of some
input and carries a non-empty id. -/
theorem ensureUniqueIdsGo_mem (ts : Nat) :
    ∀ (idx : Nat) (l : List VulnerabilityIssue),
      ∀ x ∈ Formatter.ensureUniqueIdsGo ts idx l,
        ∃ i ∈ l, x.line = i.line ∧ x.columnStart = i.columnStart
          ∧ x.columnEnd = i.columnEnd ∧ x.id ≠ "" := by
  intro idx l
  induction l generalizing idx with
  | nil => intro x hx; simp [Formatter.ensureUniqueIdsGo] at hx
  | cons i rest ih =>
      intro x hx
      simp only [Formatter.ensureUniqueIdsGo, List.mem_cons] at hx
      rcases hx with hx | hx
      · refine ⟨i, List.mem_cons_self i rest, ?_⟩
        by_cases h : jsTrim i.id = ""
        · rw [if_pos h] at hx
          subst hx
          exact ⟨rfl, rfl, rfl, generateId_ne_empty ts i idx⟩
        · rw [if_neg h] at hx
          subst hx
          refine ⟨rfl, rfl, rfl, fun hid => h ?_⟩
          rw [hid]
          rfl
      · obtain ⟨j, hj, hprops⟩ := ih (idx + 1) x hx
        exact ⟨j, List.mem_cons_of_mem i hj, hprops⟩

/-- An invalid remote-response element: line `0`, column end before
column start.  Its element-level validation (`isValidVulnerability`) only
checks field types, so it passes. -/
def badVuln : LLMAnalyzer.LLMVulnerability :=
  { title := "Odd finding", description := "low-level detail",
    severity := "High", owaspCategory := "A03:2021", line := 0,
    columnStart := some 5, columnEnd := some 2, fix := "rewrite" }

/-- C2 counterexample: a scan whose remote response reports a finding at
line 0 with `columnEnd < columnStart` emits exactly that finding — the
Formatter's defaults (`issue.line || 0`) do not establish `line ≥ 1`, and
no `columnEnd ≥ columnStart` repair exists. -/
theorem format_field_invariants_counterexample :
    ¬ (∀ i ∈ (SecurityScanEngine.scan sampleClock sampleId "var x = 1" ".js"
          ScanLanguage.unknown (Except.ok []) (Except.ok [badVuln])).issues,
        1 ≤ i.line ∧ i.columnStart ≤ i.columnEnd) := by
  decide

/-- C2 (amended): every finding the Formatter emits has all required
fields populated — non-empty id, title, description, category and fix,
and a severity from the five-value enum; `line ≥ 1` and
`columnEnd ≥ columnStart` hold for the output whenever they hold for the
input (the validation defaults `line` to 0 and leaves column bounds
unordered, so they are preserved, not established). -/
theorem format_field_invariants (clock : Clock) (issues : List VulnerabilityIssue)
    (md : ScanMetadata)
    (h : ∀ i ∈ issues, 1 ≤ i.line ∧ i.columnStart ≤ i.columnEnd) :
    ∀ j ∈ (Formatter.format clock issues md).issues,
      1 ≤ j.line ∧ j.columnStart ≤ j.columnEnd ∧ j.id ≠ ""
      ∧ j.title ≠ "" ∧ j.description ≠ "" ∧ j.owaspCategory ≠ "" ∧ j.fix ≠ ""
      ∧ j.severity ∈ [SeverityLevel.critical, SeverityLevel.high,
          SeverityLevel.medium, SeverityLevel.low, SeverityLevel.info] := by
  intro j hj
  have hform : (Formatter.format clock issues md).issues
      = Formatter.validateIssues
          (Formatter.sortIssues (Formatter.ensureUniqueIds clock.nowMs issues)) := rfl
  rw [hform] at hj
  obtain ⟨x, hxmem, hxj⟩ := List.mem_map.1 hj
  have hxpre : x ∈ Formatter.ensureUniqueIds clock.nowMs issues :=
    ((List.perm_insertionSort Formatter.sortLe _).mem_iff).1 hxmem
  obtain ⟨i, himem, hline, hcs, hce, hid⟩ :=
    ensureUniqueIdsGo_mem clock.nowMs 0 issues x hxpre
  obtain ⟨hile, hico⟩ := h i himem
  subst hxj
  unfold Formatter.validateIssue
  refine ⟨?_, ?_, ?_, ?_, ?_, ?_, ?_, ?_⟩
  · simpa [jsOrInt_zero, hline] using hile
  · simpa [jsOrInt_zero, hcs, hce] using hico
  · simpa [jsOr_empty_default] using hid
  · exact jsOr_ne_empty _ _ (by decide)
  · exact jsOr_ne_empty _ _ (by decide)
  · exact jsOr_ne_empty _ _ (by decide)
  · exact jsOr_ne_empty _ _ (by decide)
  · cases x.severity <;> simp

/-- Sample metadata for witnesses. -/
def sampleMeta : ScanMetadata :=
  { timestamp := "2023-11-14T22:13:20.000Z", duration := 5,
    language := "javascript", linesOfCode := 3,
    analyzersUsed := ["static", "llm"], staticRulesApplied := 4,
    llmModel := some "gpt-4o-mini" }

/-- Witness for `format_field_invariants` at a concrete input. -/
theorem format_field_invariants_witness :
    1 ≤ ((Formatter.format sampleClock [sampleA] sampleMeta).issues.headD sampleA).line
    ∧ ((Formatter.format sampleClock [sampleA] sampleMeta).issues.headD sampleA).id ≠ "" := by
  have h := format_field_invariants sampleClock [sampleA] sampleMeta (by decide)
  have hmem : (Formatter.format sampleClock [sampleA] sampleMeta).issues.headD sampleA
      ∈ (Formatter.format sampleClock [sampleA] sampleMeta).issues := by decide
  exact ⟨(h _ hmem).1, (h _ hmem).2.2.1⟩

/-- C4: a scan whose source text is empty or blank fails fast: success is
false, no issues, the single error message mentions "empty" (it
decomposes around that word), no adapters are recorded, and the duration
is zero. -/
theorem scan_empty_input (clock : Clock) (newId : Nat → String)
    (code language : String) (contentDetected : ScanLanguage)
    (staticTask : Except String (List VulnerabilityIssue))
    (llmCall : Except String (List LLMAnalyzer.LLMVulnerability))
    (h : jsTrim code = "") :
    (SecurityScanEngine.scan clock newId code language contentDetected
        staticTask llmCall).success = false
    ∧ (SecurityScanEngine.scan clock newId code language contentDetected
        staticTask llmCall).issues = []
    ∧ (SecurityScanEngine.scan clock newId code language contentDetected
        staticTask llmCall).errors = some ["Invalid input: Code cannot be empty"]
    ∧ "Invalid input: Code cannot be empty" = "Invalid input: Code cannot be " ++ "empty"
    ∧ (SecurityScanEngine.scan clock newId code language contentDetected
        staticTask llmCall).metadata.analyzersUsed = []
    ∧ (SecurityScanEngine.scan clock newId code language contentDetected
        staticTask llmCall).metadata.duration = 0 := by
  have hval : SecurityScanEngine.validateInput clock code language
      = some (SecurityScanEngine.createErrorResult clock
          "Invalid input: Code cannot be empty" clock.nowMs) := by
    unfold SecurityScanEngine.validateInput
    rw [if_pos h]
  have hscan : SecurityScanEngine.scan clock newId code language contentDetected
      staticTask llmCall
      = SecurityScanEngine.createErrorResult clock
          "Invalid input: Code cannot be empty" clock.nowMs := by
    unfold SecurityScanEngine.scan
    rw [hval]
  rw [hscan]
  refine ⟨rfl, rfl, rfl, rfl, rfl, ?_⟩
  show (clock.nowMs : Int) - (clock.nowMs : Int) = 0
  omega

/-- Witness for `scan_empty_input` at a concrete blank input. -/
theorem scan_empty_input_witness :
    (SecurityScanEngine.scan sampleClock sampleId "   " "javascript"
        ScanLanguage.unknown (Except.ok []) (Except.ok [])).success = false
    ∧ (SecurityScanEngine.scan sampleClock sampleId "   " "javascript"
        ScanLanguage.unknown (Except.ok []) (Except.ok [])).metadata.duration = 0 := by
  have h := scan_empty_input sampleClock sampleId "   " "javascript"
    ScanLanguage.unknown (Except.ok []) (Except.ok []) (by decide)
  exact ⟨h.1, h.2.2.2.2.2⟩

/-- C3 counterexample: when the remote call times out while the pattern
detector found one issue, the scan succeeds with exactly that finding but
carries NO error entry at all — the analyzer swallows the timeout
internally (console log only), so no diagnostic referencing the llm
source reaches the outcome. -/
theorem scan_llm_timeout_counterexample :
    (SecurityScanEngine.scan sampleClock sampleId
        "const password = \"hardcoded-secret-123\";" ".js" ScanLanguage.unknown
        (Except.ok [sampleA]) (Except.error "LLM API timeout after 30000ms")).success = true
    ∧ (SecurityScanEngine.scan sampleClock sampleId
        "const password = \"hardcoded-secret-123\";" ".js" ScanLanguage.unknown
        (Except.ok [sampleA]) (Except.error "LLM API timeout after 30000ms")).issues.map
          (fun i => i.title) = ["SQL Injection"]
    ∧ (SecurityScanEngine.scan sampleClock sampleId
        "const password = \"hardcoded-secret-123\";" ".js" ScanLanguage.unknown
        (Except.ok [sampleA]) (Except.error "LLM API timeout after 30000ms")).errors
        = none := by
  decide

/-- C3 (amended): a contextual-analyzer failure (timeout included) during
a scan in which the pattern detector produced exactly one finding still
yields success, exactly that finding (formatted), and never a crash —
but no error entry is attached: the adapter converts the timeout into an
empty finding list with no diagnostic. -/
theorem scan_llm_timeout_degrades (clock : Clock) (newId : Nat → String)
    (code language : String) (contentDetected : ScanLanguage)
    (f : VulnerabilityIssue) (msg : String)
    (hval : SecurityScanEngine.validateInput clock code language = none)
    (hsup : LanguageDetector.isSupported
      (LanguageDetector.detect language contentDetected) = true) :
    (SecurityScanEngine.scan clock newId code language contentDetected
        (Except.ok [f]) (Except.error msg)).success = true
    ∧ (SecurityScanEngine.scan clock newId code language contentDetected
        (Except.ok [f]) (Except.error msg)).issues
        = Formatter.validateIssues (Formatter.ensureUniqueIds clock.nowMs [f])
    ∧ (SecurityScanEngine.scan clock newId code language contentDetected
        (Except.ok [f]) (Except.error msg)).errors = none := by
  have hscan : SecurityScanEngine.scan clock newId code language contentDetected
      (Except.ok [f]) (Except.error msg)
      = Formatter.format clock [f]
          { timestamp := clock.nowIso,
            duration := (clock.nowMs : Int) - (clock.nowMs : Int),
            language := languageString (LanguageDetector.detect language contentDetected),
            linesOfCode := (CodeParser.parse code).lines.length,
            analyzersUsed := ["static", "llm"],
            staticRulesApplied := SecurityScanEngine.STATIC_RULE_COUNT,
            llmModel := some "gpt-4o-mini" } := by
    unfold SecurityScanEngine.scan
    rw [hval]
    dsimp only
    rw [hsup]
    rfl
  rw [hscan]
  exact ⟨rfl, rfl, rfl⟩

/-- Witness for `scan_llm_timeout_degrades` at a concrete input. -/
theorem scan_llm_timeout_degrades_witness :
    (SecurityScanEngine.scan sampleClock sampleId "var x = 1" ".jsx"
        ScanLanguage.unknown (Except.ok [sampleC]) (Except.error "fetch failed")).success
        = true
    ∧ (SecurityScanEngine.scan sampleClock sampleId "var x = 1" ".jsx"
        ScanLanguage.unknown (Except.ok [sampleC]) (Except.error "fetch failed")).errors
        = none := by
  have h := scan_llm_timeout_degrades sampleClock sampleId "var x = 1" ".jsx"
    ScanLanguage.unknown sampleC "fetch failed" (by decide) (by decide)
  exact ⟨h.1, h.2.2⟩

/-- Any result produced by input validation is a failure result. -/
theorem validateInput_success (clock : Clock) (code language : String)
    (r : ScanResult)
    (h : SecurityScanEngine.validateInput clock code language = some r) :
    r.success = false := by
  unfold SecurityScanEngine.validateInput at h
  split_ifs at h
  · rw [Option.some.injEq] at h
    rw [← h]
    rfl
  · rw [Option.some.injEq] at h
    rw [← h]
    rfl

/-- C5 counterexample: a remote-call failure is an adapter-level failure,
yet the scan outcome carries NO populated error list — the analyzer
swallows the failure, so "success with populated errors" does not hold
for every adapter-failure combination. -/
theorem scan_success_policy_counterexample :
    (SecurityScanEngine.scan sampleClock sampleId "let y = 2" ".ts"
        ScanLanguage.unknown (Except.ok []) (Except.error "Network error")).success = true
    ∧ (SecurityScanEngine.scan sampleClock sampleId "let y = 2" ".ts"
        ScanLanguage.unknown (Except.ok []) (Except.error "Network error")).errors
        = none := by
  decide

/-- C5 (amended): a scan reports failure exactly for an input error or an
unsupported language (the System branch is unreachable in this total
model); a rejected static-analyzer task keeps success true and populates
the error list with the tagged diagnostic, while a remote-call failure
keeps success true with no error entry (the llm adapter swallows its
failures). -/
theorem scan_success_policy (clock : Clock) (newId : Nat → String)
    (code language : String) (contentDetected : ScanLanguage)
    (staticTask : Except String (List VulnerabilityIssue))
    (llmCall : Except String (List LLMAnalyzer.LLMVulnerability)) :
    ((SecurityScanEngine.scan clock newId code language contentDetected
        staticTask llmCall).success = false ↔
      (SecurityScanEngine.validateInput clock code language ≠ none
        ∨ LanguageDetector.isSupported
            (LanguageDetector.detect language contentDetected) = false))
    ∧ (∀ msg : String, staticTask = Except.error msg →
        SecurityScanEngine.validateInput clock code language = none →
        LanguageDetector.isSupported
          (LanguageDetector.detect language contentDetected) = true →
        (SecurityScanEngine.scan clock newId code language contentDetected
            staticTask llmCall).success = true
        ∧ (SecurityScanEngine.scan clock newId code language contentDetected
            staticTask llmCall).errors
            = some ["[static] Static analyzer failed: " ++ msg])
    ∧ (∀ (msg : String) (issues0 : List VulnerabilityIssue),
        staticTask = Except.ok issues0 → llmCall = Except.error msg →
        SecurityScanEngine.validateInput clock code language = none →
        LanguageDetector.isSupported
          (LanguageDetector.detect language contentDetected) = true →
        (SecurityScanEngine.scan clock newId code language contentDetected
            staticTask llmCall).success = true
        ∧ (SecurityScanEngine.scan clock newId code language contentDetected
            staticTask llmCall).errors = none) := by
  refine ⟨?_, ?_, ?_⟩
  · rcases hval : SecurityScanEngine.validateInput clock code language with _ | r
    · by_cases hsup : LanguageDetector.isSupported
          (LanguageDetector.detect language contentDetected) = true
      · have hsucc : (SecurityScanEngine.scan clock newId code language
            contentDetected staticTask llmCall).success = true := by
          have hred : SecurityScanEngine.scan clock newId code language
              contentDetected staticTask llmCall
              = (let parsedCode := CodeParser.parse code
                 let analyzerResults := SecurityScanEngine.executeAnalyzers staticTask
                   (Except.ok (LLMAnalyzer.analyze newId llmCall parsedCode))
                 let errors := ResultAggregator.getErrors analyzerResults
                 let scanResult := Formatter.format clock
                   (Deduplicator.deduplicate (ResultAggregator.aggregate analyzerResults))
                   { timestamp := clock.nowIso,
                     duration := (clock.nowMs : Int) - (clock.nowMs : Int),
                     language := languageString
                       (LanguageDetector.detect language contentDetected),
                     linesOfCode := parsedCode.lines.length,
                     analyzersUsed := analyzerResults.map (fun r => r.source),
                     staticRulesApplied := SecurityScanEngine.STATIC_RULE_COUNT,
                     llmModel := some "gpt-4o-mini" }
                 if errors.length > 0 then { scanResult with errors := some errors }
                 else scanResult) := by
            unfold SecurityScanEngine.scan
            rw [hval]
            dsimp only
            rw [hsup]
            rfl
          rw [hred]
          dsimp only
          split
          · rfl
          · rfl
        rw [hsucc]
        apply iff_of_false
        · simp
        · rintro (hc | hc)
          · exact hc rfl
          · rw [hsup] at hc
            cases hc
      · have hsup2 : LanguageDetector.isSupported
            (LanguageDetector.detect language contentDetected) = false := by
          revert hsup
          cases LanguageDetector.isSupported
            (LanguageDetector.detect language contentDetected) <;> simp
        have hfail : (SecurityScanEngine.scan clock newId code language
            contentDetected staticTask llmCall).success = false := by
          unfold SecurityScanEngine.scan
          rw [hval]
          dsimp only
          rw [hsup2]
          rfl
        rw [hfail]
        exact iff_of_true rfl (Or.inr hsup2)
    · have hr : SecurityScanEngine.scan clock newId code language contentDetected
          staticTask llmCall = r := by
        unfold SecurityScanEngine.scan
        rw [hval]
      rw [hr]
      rw [validateInput_success clock code language r hval]
      exact iff_of_true rfl (Or.inl (Option.some_ne_none r))
  · intro msg hst hval hsup
    subst hst
    have hscan : SecurityScanEngine.scan clock newId code language contentDetected
        (Except.error msg) llmCall
        = (let parsedCode := CodeParser.parse code
           let llmTask := Except.ok (LLMAnalyzer.analyze newId llmCall parsedCode)
           let analyzerResults := SecurityScanEngine.executeAnalyzers
             (Except.error msg) llmTask
           let scanResult := Formatter.format clock
             (Deduplicator.deduplicate (ResultAggregator.aggregate analyzerResults))
             { timestamp := clock.nowIso,
               duration := (clock.nowMs : Int) - (clock.nowMs : Int),
               language := languageString
                 (LanguageDetector.detect language contentDetected),
               linesOfCode := parsedCode.lines.length,
               analyzersUsed := analyzerResults.map (fun r => r.source),
               staticRulesApplied := SecurityScanEngine.STATIC_RULE_COUNT,
               llmModel := some "gpt-4o-mini" }
           { scanResult with
              errors := some ["[static] Static analyzer failed: " ++ msg] }) := by
      unfold SecurityScanEngine.scan
      rw [hval]
      dsimp only
      rw [hsup]
      rfl
    rw [hscan]
    exact ⟨rfl, rfl⟩
  · intro msg issues0 hst hllm hval hsup
    subst hst
    subst hllm
    have hmd : SecurityScanEngine.scan clock newId code language contentDetected
          (Except.ok issues0) (Except.error msg)
        = Formatter.format clock (Deduplicator.deduplicate (issues0 ++ []))
            { timestamp := clock.nowIso,
              duration := (clock.nowMs : Int) - (clock.nowMs : Int),
              language := languageString
                (LanguageDetector.detect language contentDetected),
              linesOfCode := (CodeParser.parse code).lines.length,
              analyzersUsed := ["static", "llm"],
              staticRulesApplied := SecurityScanEngine.STATIC_RULE_COUNT,
              llmModel := some "gpt-4o-mini" } := by
      unfold SecurityScanEngine.scan
      rw [hval]
      dsimp only
      rw [hsup]
      rfl
    rw [hmd]
    exact ⟨rfl, rfl⟩

/-- Witness for `scan_success_policy` at concrete inputs. -/
theorem scan_success_policy_witness :
    (SecurityScanEngine.scan sampleClock sampleId "let y = 2" ".ts"
        ScanLanguage.unknown (Except.error "boom") (Except.ok [])).success = true
    ∧ (SecurityScanEngine.scan sampleClock sampleId "let y = 2" ".ts"
        ScanLanguage.unknown (Except.error "boom") (Except.ok [])).errors
        = some ["[static] Static analyzer failed: " ++ "boom"] := by
  exact (scan_success_policy sampleClock sampleId "let y = 2" ".ts"
    ScanLanguage.unknown (Except.error "boom") (Except.ok [])).2.1 "boom" rfl
    (by decide) (by decide)
